import Mathlib

/-!
# Web3D-Bookmark: verified model of the storage and route layers

A shallow embedding of the bookmark manager's server (`src/server/storage.ts`,
`src/server/routes.ts`, `src/shared/schema.ts`) and of the client's optimistic
delete flow (`src/client/src/hooks/use-bookmarks.ts`).

Modelling conventions:
* The relational store is a `DB` value holding the three tables as lists of
  rows plus the serial-id counters; every storage method becomes a pure
  function threading the `DB`.
* JSON / SQL `real` numbers are modelled as `Rat` (the claims under study only
  involve exact decimal literals and order comparisons, never rounding).
* `timestamp` columns are modelled as `Nat` ticks supplied explicitly by the
  caller (`new Date()` / `defaultNow()` become a `now` argument).
* Columns declared with a `.default(...)` and no `.notNull()` are modelled as
  non-nullable with the default applied on insert; `bookmarks.user_id`, which
  has no default, keeps its nullability as `Option String`.
* `String(user.id)` is `toString`, and `email.toLowerCase()` is `lowerString`
  (per-character ASCII lowercasing, as in JS for ASCII emails).
* Express handlers become functions from the `DB`, the session and the parsed
  request to a `HandlerResult`: the new `DB`, the HTTP status, the response
  body and the trace of user-scoped storage calls the handler performed.
-/

namespace Web3DBookmark

/-- A row of the `users` table (`src/shared/schema.ts`). -/
structure User where
  id : Int
  name : String
  email : String
  passwordHash : String
  createdAt : Nat
deriving Repr, DecidableEq

/-- A row of the `bookmarks` table (`src/shared/schema.ts`); `userId` is a
nullable `varchar` holding the decimal string of the owning user's id. -/
structure Bookmark where
  id : Int
  userId : Option String
  title : String
  url : String
  category : String
  x : Rat
  y : Rat
  z : Rat
  scale : Rat
  pinned : Bool
  createdAt : Nat
deriving Repr, DecidableEq

/-- A row of the `user_settings` table (`src/shared/schema.ts`). -/
structure UserSettings where
  id : Int
  userId : String
  glowIntensity : Rat
  autoRotateSpeed : Rat
  zoomSensitivity : Rat
  particleDensity : Int
  performanceMode : Bool
  reducedMotion : Bool
  highContrast : Bool
  updatedAt : Nat
deriving Repr, DecidableEq

/-- The relational store: the three tables plus the `serial` id counters. -/
structure DB where
  users : List User
  bookmarks : List Bookmark
  settings : List UserSettings
  nextUserId : Int
  nextBookmarkId : Int
  nextSettingsId : Int
deriving Repr, DecidableEq

/-- `email.toLowerCase()` of `storage.ts` (ASCII lowercasing per character). -/
def lowerString (s : String) : String :=
  ⟨s.data.map Char.toLower⟩

/-! ## Parsed request payloads (`src/shared/schema.ts`) -/

/-- `insertBookmarkSchema`: `id`, `userId`, `createdAt` omitted; columns with
defaults are optional. -/
structure InsertBookmark where
  title : String
  url : String
  category : String
  x : Option Rat
  y : Option Rat
  z : Option Rat
  scale : Option Rat
  pinned : Option Bool
deriving Repr, DecidableEq

/-- `UpdateBookmark = Partial<InsertBookmark>`. -/
structure UpdateBookmark where
  title : Option String
  url : Option String
  category : Option String
  x : Option Rat
  y : Option Rat
  z : Option Rat
  scale : Option Rat
  pinned : Option Bool
deriving Repr, DecidableEq

/-- `upsertSettingsSchema`: every settings column optional (`.partial()`). -/
structure UpsertSettings where
  glowIntensity : Option Rat
  autoRotateSpeed : Option Rat
  zoomSensitivity : Option Rat
  particleDensity : Option Int
  performanceMode : Option Bool
  reducedMotion : Option Bool
  highContrast : Option Bool
deriving Repr, DecidableEq

/-- A well-typed element of the JSON array sent to `PUT /api/bookmarks/layout`,
before the zod refinements of `updateBookmarkLayoutSchema` run. -/
structure LayoutInput where
  id : Int
  x : Rat
  y : Rat
  z : Rat
  scale : Option Rat
  pinned : Option Bool
deriving Repr, DecidableEq

/-- Output of `updateBookmarkLayoutSchema.parse`: the scale default `1` has
been filled in; `pinned` stays optional. -/
structure LayoutTuple where
  id : Int
  x : Rat
  y : Rat
  z : Rat
  scale : Rat
  pinned : Option Bool
deriving Repr, DecidableEq

/-- A tuple handed to `storage.updateBookmarkLayouts`
(`Pick<Bookmark, "id" | "x" | "y" | "z" | "scale" | "pinned">` with `pinned`
already defaulted by the route). -/
structure LayoutWrite where
  id : Int
  x : Rat
  y : Rat
  z : Rat
  scale : Rat
  pinned : Bool
deriving Repr, DecidableEq

/-- `updateBookmarkLayoutSchema.parse` on one element: `id` must be a positive
integer, `scale` defaults to `1` and must lie in `[0.2, 3]` when present. -/
def parseLayoutInput (t : LayoutInput) : Option LayoutTuple :=
  if 0 < t.id then
    match t.scale with
    | none => some { id := t.id, x := t.x, y := t.y, z := t.z, scale := 1, pinned := t.pinned }
    | some s =>
        if 1/5 ≤ s ∧ s ≤ 3 then
          some { id := t.id, x := t.x, y := t.y, z := t.z, scale := s, pinned := t.pinned }
        else
          none
  else
    none

/-- `z.array(updateBookmarkLayoutSchema).parse`: the whole batch parses or the
whole batch is rejected. -/
def parseLayoutBatch : List LayoutInput → Option (List LayoutTuple)
  | [] => some []
  | t :: ts =>
    match parseLayoutInput t, parseLayoutBatch ts with
    | some p, some ps => some (p :: ps)
    | _, _ => none

/-! ## Storage layer (`src/server/storage.ts`, class `DatabaseStorage`) -/

/-- `getUserById`: `select … where eq(users.id, id)`, first row. -/
def getUserById (db : DB) (id : Int) : Option User :=
  (db.users.filter (fun u => u.id == id)).head?

/-- `getUserByEmail`: the lookup lowercases the query email. -/
def getUserByEmail (db : DB) (email : String) : Option User :=
  (db.users.filter (fun u => u.email == lowerString email)).head?

/-- `createUser`: inserts a row with the email lowercased. -/
def createUser (db : DB) (name email passwordHash : String) (now : Nat) : DB × User :=
  let user : User :=
    { id := db.nextUserId, name := name, email := lowerString email,
      passwordHash := passwordHash, createdAt := now }
  ({ db with users := db.users ++ [user], nextUserId := db.nextUserId + 1 }, user)

/-- Row predicate of the owner filter `and(eq(bookmarks.id, id),
eq(bookmarks.userId, userId))`; a SQL `NULL` owner matches no user. -/
def ownedRow (id : Int) (userId : String) (b : Bookmark) : Bool :=
  b.id == id && b.userId == some userId

/-- `getBookmarks`: `select … where eq(bookmarks.userId, userId)`. -/
def getBookmarks (db : DB) (userId : String) : List Bookmark :=
  db.bookmarks.filter (fun b => b.userId == some userId)

/-- `getBookmark`: first row matching the id *and* the owner filter. -/
def getBookmark (db : DB) (id : Int) (userId : String) : Option Bookmark :=
  (db.bookmarks.filter (ownedRow id userId)).head?

/-- `createBookmark`: insert `{ ...insertBookmark, userId }`, the missing
optional columns taking their schema defaults (`0`, `1`, `false`). -/
def createBookmark (db : DB) (ib : InsertBookmark) (userId : String) (now : Nat) :
    DB × Bookmark :=
  let b : Bookmark :=
    { id := db.nextBookmarkId, userId := some userId, title := ib.title, url := ib.url,
      category := ib.category, x := ib.x.getD 0, y := ib.y.getD 0, z := ib.z.getD 0,
      scale := ib.scale.getD 1, pinned := ib.pinned.getD false, createdAt := now }
  ({ db with bookmarks := db.bookmarks ++ [b], nextBookmarkId := db.nextBookmarkId + 1 }, b)

/-- `update … set(updateBookmark)` on one row: only provided fields change. -/
def setBookmarkFields (ub : UpdateBookmark) (b : Bookmark) : Bookmark :=
  { b with
    title := ub.title.getD b.title, url := ub.url.getD b.url,
    category := ub.category.getD b.category,
    x := ub.x.getD b.x, y := ub.y.getD b.y, z := ub.z.getD b.z,
    scale := ub.scale.getD b.scale, pinned := ub.pinned.getD b.pinned }

/-- `updateBookmark`: update rows matching the owner filter, return the first
updated row (`returning()` head) if any. -/
def updateBookmark (db : DB) (id : Int) (ub : UpdateBookmark) (userId : String) :
    DB × Option Bookmark :=
  let rows := db.bookmarks.map (fun b => if ownedRow id userId b then setBookmarkFields ub b else b)
  ({ db with bookmarks := rows }, (rows.filter (ownedRow id userId)).head?)

/-- One `db.update` of the `updateBookmarkLayouts` loop applied to one row:
set `x, y, z, scale, pinned` when the id and the owner filter both match. -/
def applyLayout (userId : String) (t : LayoutWrite) (b : Bookmark) : Bookmark :=
  if ownedRow t.id userId b then
    { b with x := t.x, y := t.y, z := t.z, scale := t.scale, pinned := t.pinned }
  else
    b

/-- `updateBookmarkLayouts`: the `for … of layouts` loop, one owner-filtered
update per tuple. -/
def updateBookmarkLayouts (db : DB) (userId : String) (layouts : List LayoutWrite) : DB :=
  { db with
    bookmarks := layouts.foldl (fun rows t => rows.map (applyLayout userId t)) db.bookmarks }

/-- `deleteBookmark`: delete the owner-filtered rows; report whether
`returning` produced at least one row. -/
def deleteBookmark (db : DB) (id : Int) (userId : String) : DB × Bool :=
  let deleted := db.bookmarks.filter (ownedRow id userId)
  ({ db with bookmarks := db.bookmarks.filter (fun b => !(ownedRow id userId b)) },
   decide (0 < deleted.length))

/-- `getSettings`: first row with the given `userId`. -/
def getSettings (db : DB) (userId : String) : Option UserSettings :=
  (db.settings.filter (fun s => s.userId == userId)).head?

/-- `update … set({ ...settings, updatedAt: new Date() })` on one row. -/
def setSettingsFields (s : UpsertSettings) (now : Nat) (row : UserSettings) : UserSettings :=
  { row with
    glowIntensity := s.glowIntensity.getD row.glowIntensity,
    autoRotateSpeed := s.autoRotateSpeed.getD row.autoRotateSpeed,
    zoomSensitivity := s.zoomSensitivity.getD row.zoomSensitivity,
    particleDensity := s.particleDensity.getD row.particleDensity,
    performanceMode := s.performanceMode.getD row.performanceMode,
    reducedMotion := s.reducedMotion.getD row.reducedMotion,
    highContrast := s.highContrast.getD row.highContrast,
    updatedAt := now }

/-- `upsertSettings`: update the existing row, or insert
`{ userId, ...settings }` with the schema defaults for missing columns. -/
def upsertSettings (db : DB) (userId : String) (s : UpsertSettings) (now : Nat) :
    DB × UserSettings :=
  match getSettings db userId with
  | some existing =>
    let rows := db.settings.map
      (fun row => if row.userId == userId then setSettingsFields s now row else row)
    ({ db with settings := rows }, setSettingsFields s now existing)
  | none =>
    let created : UserSettings :=
      { id := db.nextSettingsId, userId := userId,
        glowIntensity := s.glowIntensity.getD (11/10),
        autoRotateSpeed := s.autoRotateSpeed.getD (7/20),
        zoomSensitivity := s.zoomSensitivity.getD 1,
        particleDensity := s.particleDensity.getD 120,
        performanceMode := s.performanceMode.getD false,
        reducedMotion := s.reducedMotion.getD false,
        highContrast := s.highContrast.getD false, updatedAt := now }
    ({ db with settings := db.settings ++ [created], nextSettingsId := db.nextSettingsId + 1 },
     created)

/-! ## Route layer (`src/server/routes.ts`) -/

/-- The user-scoped bookmark / settings storage calls a handler can make,
recorded as a trace so that "no storage access happened" is expressible. -/
inductive StorageOp where
  | opGetBookmarks (userId : String)
  | opCreateBookmark (userId : String)
  | opUpdateBookmark (id : Int) (userId : String)
  | opUpdateLayouts (userId : String)
  | opDeleteBookmark (id : Int) (userId : String)
  | opGetSettings (userId : String)
  | opUpsertSettings (userId : String)
deriving Repr, DecidableEq

/-- Outcome of one request: resulting store, HTTP status, response body, and
the trace of user-scoped storage calls performed. -/
structure HandlerResult (α : Type) where
  db : DB
  status : Nat
  body : Option α
  ops : List StorageOp
deriving Repr

/-- The session: `req.session.authUserId`. A missing id — and, through the JS
falsiness check `!sess.authUserId`, the id `0` — is unauthenticated. -/
def resolveAuthenticatedUser (db : DB) (sess : Option Int) : Option User :=
  match sess with
  | none => none
  | some uid => if uid == 0 then none else getUserById db uid

/-- `String(user.id)`: the storage key of a user. -/
def userKey (u : User) : String :=
  toString u.id

/-- `GET /api/bookmarks`. -/
def getBookmarksHandler (db : DB) (sess : Option Int) : HandlerResult (List Bookmark) :=
  match resolveAuthenticatedUser db sess with
  | none => ⟨db, 401, none, []⟩
  | some user =>
    ⟨db, 200, some (getBookmarks db (userKey user)), [.opGetBookmarks (userKey user)]⟩

/-- `POST /api/bookmarks` (payload already past `insertBookmarkSchema`, which
imposes no numeric refinement). -/
def createBookmarkHandler (db : DB) (sess : Option Int) (ib : InsertBookmark) (now : Nat) :
    HandlerResult Bookmark :=
  match resolveAuthenticatedUser db sess with
  | none => ⟨db, 401, none, []⟩
  | some user =>
    let (db', b) := createBookmark db ib (userKey user) now
    ⟨db', 201, some b, [.opCreateBookmark (userKey user)]⟩

/-- `PUT /api/bookmarks/:id`; `idParam = none` models a `parseInt` `NaN`. -/
def updateBookmarkHandler (db : DB) (sess : Option Int) (idParam : Option Int)
    (ub : UpdateBookmark) : HandlerResult Bookmark :=
  match resolveAuthenticatedUser db sess with
  | none => ⟨db, 401, none, []⟩
  | some user =>
    match idParam with
    | none => ⟨db, 400, none, []⟩
    | some id =>
      let (db', updated) := updateBookmark db id ub (userKey user)
      match updated with
      | none => ⟨db', 404, none, [.opUpdateBookmark id (userKey user)]⟩
      | some b => ⟨db', 200, some b, [.opUpdateBookmark id (userKey user)]⟩

/-- The route's `layouts.map((layout) => ({ ...layout, pinned: layout.pinned ?? false }))`
on one tuple. -/
def toLayoutWrite (p : LayoutTuple) : LayoutWrite :=
  { id := p.id, x := p.x, y := p.y, z := p.z, scale := p.scale, pinned := p.pinned.getD false }

/-- `PUT /api/bookmarks/layout`: parse the whole batch, then one storage call. -/
def layoutHandler (db : DB) (sess : Option Int) (raw : List LayoutInput) : HandlerResult Unit :=
  match resolveAuthenticatedUser db sess with
  | none => ⟨db, 401, none, []⟩
  | some user =>
    match parseLayoutBatch raw with
    | none => ⟨db, 400, none, []⟩
    | some parsed =>
      ⟨updateBookmarkLayouts db (userKey user) (parsed.map toLayoutWrite), 204, some (),
       [.opUpdateLayouts (userKey user)]⟩

/-- `DELETE /api/bookmarks/:id`. -/
def deleteBookmarkHandler (db : DB) (sess : Option Int) (idParam : Option Int) :
    HandlerResult Unit :=
  match resolveAuthenticatedUser db sess with
  | none => ⟨db, 401, none, []⟩
  | some user =>
    match idParam with
    | none => ⟨db, 400, none, []⟩
    | some id =>
      let (db', found) := deleteBookmark db id (userKey user)
      if found then
        ⟨db', 204, some (), [.opDeleteBookmark id (userKey user)]⟩
      else
        ⟨db', 404, none, [.opDeleteBookmark id (userKey user)]⟩

/-- The JSON body of `GET /api/settings`: either the stored row, or the inline
fallback object built in `routes.ts` (which has no `id` / `updatedAt` field). -/
inductive SettingsBody where
  | row (s : UserSettings)
  | fallback (userId : String) (glowIntensity autoRotateSpeed zoomSensitivity : Rat)
      (particleDensity : Int) (performanceMode reducedMotion highContrast : Bool)
deriving Repr, DecidableEq

/-- `GET /api/settings`. -/
def getSettingsHandler (db : DB) (sess : Option Int) : HandlerResult SettingsBody :=
  match resolveAuthenticatedUser db sess with
  | none => ⟨db, 401, none, []⟩
  | some user =>
    let uid := userKey user
    let body :=
      match getSettings db uid with
      | some s => SettingsBody.row s
      | none => SettingsBody.fallback uid (11/10) (7/20) 1 120 false false false
    ⟨db, 200, some body, [.opGetSettings uid]⟩

/-- `PUT /api/settings` (payload already past `upsertSettingsSchema`, which
imposes no refinement beyond types). -/
def putSettingsHandler (db : DB) (sess : Option Int) (s : UpsertSettings) (now : Nat) :
    HandlerResult UserSettings :=
  match resolveAuthenticatedUser db sess with
  | none => ⟨db, 401, none, []⟩
  | some user =>
    let (db', stored) := upsertSettings db (userKey user) s now
    ⟨db', 200, some stored, [.opUpsertSettings (userKey user)]⟩

/-- Parsed `signupSchema` payload. -/
structure SignupInput where
  name : String
  email : String
  password : String
deriving Repr, DecidableEq

/-- `POST /api/auth/signup` after `signupSchema.parse`: reject on an existing
(lowercased) email, else insert the new user. The salted `scrypt` hash is an
input (`hashPassword` draws random salt, which the store never inspects). -/
def signupHandler (db : DB) (input : SignupInput) (passwordHash : String) (now : Nat) :
    DB × Nat × Option User :=
  match getUserByEmail db input.email with
  | some _ => (db, 409, none)
  | none =>
    let (db', user) := createUser db input.name input.email passwordHash now
    (db', 201, some user)

/-! ## Client optimistic delete (`src/client/src/hooks/use-bookmarks.ts`) -/

/-- The slice of the react-query cache the delete flow touches: the bookmark
list entry (`undefined` when never fetched) and whether an invalidation has
scheduled a refetch. -/
structure ClientCache where
  bookmarkData : Option (List Bookmark)
  refetchScheduled : Bool
deriving Repr, DecidableEq

/-- `onMutate`: snapshot the current list, then optimistically filter the id
out (an absent entry is treated as `[]` by the updater's default argument). -/
def deleteOnMutate (cache : ClientCache) (id : Int) : ClientCache × Option (List Bookmark) :=
  ({ cache with
     bookmarkData := some ((cache.bookmarkData.getD []).filter (fun b => b.id != id)) },
   cache.bookmarkData)

/-- `onError`: restore the snapshot when one was captured (in JS an array —
even an empty one — is truthy; only `undefined` skips the restore). -/
def deleteOnError (cache : ClientCache) (previous : Option (List Bookmark)) : ClientCache :=
  match previous with
  | some prev => { cache with bookmarkData := some prev }
  | none => cache

/-- `onSettled`: invalidate the list query, scheduling a refetch. -/
def deleteOnSettled (cache : ClientCache) : ClientCache :=
  { cache with refetchScheduled := true }

/-- The whole `useDeleteBookmark` mutation round-trip: optimistic removal,
server call succeeding or failing, rollback on failure, reconciling refetch. -/
def optimisticDelete (cache : ClientCache) (id : Int) (serverOk : Bool) : ClientCache :=
  let (c₁, previous) := deleteOnMutate cache id
  let c₂ := if serverOk then c₁ else deleteOnError c₁ previous
  deleteOnSettled c₂

/-! ## Invariants and concrete fixtures -/

/-- Primary-key uniqueness of `bookmarks.id` (`serial("id").primaryKey()`). -/
abbrev BookmarkIdsNodup (db : DB) : Prop :=
  (db.bookmarks.map Bookmark.id).Nodup

/-- Sample user `1`. -/
def aliceU : User :=
  { id := 1, name := "Alice", email := "alice@example.com", passwordHash := "s:h", createdAt := 0 }

/-- Sample user `2`. -/
def bobU : User :=
  { id := 2, name := "Bob", email := "bob@example.com", passwordHash := "s:h", createdAt := 0 }

/-- A bookmark owned by user `1`, currently pinned. -/
def bmA : Bookmark :=
  { id := 1, userId := some "1", title := "A", url := "https://a", category := "work",
    x := 0, y := 0, z := 0, scale := 1, pinned := true, createdAt := 0 }

/-- A bookmark owned by user `2`. -/
def bmB : Bookmark :=
  { id := 2, userId := some "2", title := "B", url := "https://b", category := "fun",
    x := 1, y := 2, z := 3, scale := 2, pinned := false, createdAt := 0 }

/-- A two-user, two-bookmark store used to instantiate the theorems. -/
def sampleDB : DB :=
  { users := [aliceU, bobU], bookmarks := [bmA, bmB], settings := [],
    nextUserId := 3, nextBookmarkId := 3, nextSettingsId := 1 }

/-! ## C1: owner scoping of bookmark reads -/

/-- C1. Listing bookmarks as user `u` only ever returns rows whose `userId`
is `u`, and fetching a single bookmark owned by someone else (under
primary-key uniqueness of bookmark ids) returns nothing: the owner filter is
enforced at the storage layer. -/
theorem storage_owner_scoping (db : DB) (u : String) (b : Bookmark) :
    (∀ c ∈ getBookmarks db u, c.userId = some u) ∧
    (BookmarkIdsNodup db → b ∈ db.bookmarks → b.userId ≠ some u →
      getBookmark db b.id u = none) := by
  constructor
  · intro c hc
    exact eq_of_beq (List.mem_filter.mp hc).2
  · intro hnd hb hbu
    have hfil : db.bookmarks.filter (ownedRow b.id u) = [] := by
      apply List.filter_eq_nil_iff.mpr
      intro c hc hrow
      have hparts := Bool.and_eq_true_iff.mp hrow
      have hid : c.id = b.id := eq_of_beq hparts.1
      have huser : c.userId = some u := eq_of_beq hparts.2
      have hcb : c = b := List.inj_on_of_nodup_map hnd hc hb hid
      exact hbu (hcb ▸ huser)
    simp [getBookmark, hfil]

/-- Witness for C1 on the sample store: user `1` cannot fetch bookmark `bmB`
owned by user `2`. -/
theorem storage_owner_scoping_witness :
    BookmarkIdsNodup sampleDB ∧ bmB ∈ sampleDB.bookmarks ∧ bmB.userId ≠ some "1" ∧
    getBookmark sampleDB bmB.id "1" = none :=
  ⟨by decide, by decide, by decide,
   (storage_owner_scoping sampleDB "1" bmB).2 (by decide) (by decide) (by decide)⟩

/-! ## C4: delete reports success iff an owned row was removed -/

/-- C4. `deleteBookmark` reports success exactly when a row with the given id
owned by the caller existed; when none does the store is untouched and the
route answers 404, never success. -/
theorem delete_success_iff_owned_row (db : DB) (id : Int) (u : String) (sess : Option Int)
    (user : User) :
    ((deleteBookmark db id u).2 = true ↔ ∃ c ∈ db.bookmarks, c.id = id ∧ c.userId = some u) ∧
    ((∀ c ∈ db.bookmarks, ¬(c.id = id ∧ c.userId = some u)) →
      deleteBookmark db id u = (db, false)) ∧
    (resolveAuthenticatedUser db sess = some user →
      (∀ c ∈ db.bookmarks, ¬(c.id = id ∧ c.userId = some (userKey user))) →
      deleteBookmarkHandler db sess (some id) =
        ⟨db, 404, none, [.opDeleteBookmark id (userKey user)]⟩) := by
  have hmain : ∀ v : String, (∀ c ∈ db.bookmarks, ¬(c.id = id ∧ c.userId = some v)) →
      deleteBookmark db id v = (db, false) := by
    intro v hnone
    have hkeep : db.bookmarks.filter (fun b => !(ownedRow id v b)) = db.bookmarks := by
      apply List.filter_eq_self.mpr
      intro c hc
      simp only [ownedRow, Bool.not_eq_true', Bool.and_eq_false_iff]
      rcases Classical.em (c.id = id) with hid | hid
      · right
        have : ¬ c.userId = some v := fun hu => hnone c hc ⟨hid, hu⟩
        simpa using this
      · left
        simpa using hid
    have hdrop : db.bookmarks.filter (ownedRow id v) = [] := by
      apply List.filter_eq_nil_iff.mpr
      intro c hc hrow
      have hparts := Bool.and_eq_true_iff.mp hrow
      exact hnone c hc ⟨eq_of_beq hparts.1, eq_of_beq hparts.2⟩
    simp [deleteBookmark, hkeep, hdrop]
  refine ⟨?_, hmain u, ?_⟩
  · simp only [deleteBookmark, decide_eq_true_eq]
    rw [List.length_pos]
    constructor
    · intro hne
      rcases List.exists_mem_of_ne_nil _ hne with ⟨c, hc⟩
      rcases List.mem_filter.mp hc with ⟨hcl, hrow⟩
      have hparts := Bool.and_eq_true_iff.mp hrow
      exact ⟨c, hcl, eq_of_beq hparts.1, eq_of_beq hparts.2⟩
    · rintro ⟨c, hcl, hid, hu⟩ hnil
      have : c ∈ db.bookmarks.filter (ownedRow id u) :=
        List.mem_filter.mpr ⟨hcl, by simp [ownedRow, hid, hu]⟩
      simp [hnil] at this
  · intro hres hnone
    simp [deleteBookmarkHandler, hres, hmain (userKey user) hnone]

/-- Witness for C4 on the sample store: deleting user `2`'s bookmark while
authenticated as user `1` yields 404 and leaves the store unchanged. -/
theorem delete_success_iff_owned_row_witness :
    resolveAuthenticatedUser sampleDB (some 1) = some aliceU ∧
    deleteBookmarkHandler sampleDB (some 1) (some bmB.id) =
      ⟨sampleDB, 404, none, [.opDeleteBookmark bmB.id (userKey aliceU)]⟩ :=
  ⟨by decide,
   (delete_success_iff_owned_row sampleDB bmB.id (userKey aliceU) (some 1) aliceU).2.2
     (by decide) (by decide)⟩

/-! ## C8: every bookmark / settings operation is gated on authentication -/

/-- C8. A session with no user id (or the falsy id `0`), or whose id no longer
resolves to a stored user, is unauthenticated; in that case each of the seven
bookmark / settings handlers answers 401, leaves the store untouched and
performs no user-scoped storage call (empty trace). -/
theorem auth_gate_rejects_unauthenticated (db : DB) (sess : Option Int) (uid : Int)
    (ib : InsertBookmark) (ub : UpdateBookmark) (idP idP' : Option Int)
    (raw : List LayoutInput) (s : UpsertSettings) (now now' : Nat) :
    (resolveAuthenticatedUser db none = none) ∧
    (getUserById db uid = none → resolveAuthenticatedUser db (some uid) = none) ∧
    (resolveAuthenticatedUser db sess = none →
      getBookmarksHandler db sess = ⟨db, 401, none, []⟩ ∧
      createBookmarkHandler db sess ib now = ⟨db, 401, none, []⟩ ∧
      updateBookmarkHandler db sess idP ub = ⟨db, 401, none, []⟩ ∧
      layoutHandler db sess raw = ⟨db, 401, none, []⟩ ∧
      deleteBookmarkHandler db sess idP' = ⟨db, 401, none, []⟩ ∧
      getSettingsHandler db sess = ⟨db, 401, none, []⟩ ∧
      putSettingsHandler db sess s now' = ⟨db, 401, none, []⟩) := by
  refine ⟨rfl, ?_, ?_⟩
  · intro hnone
    simp [resolveAuthenticatedUser, hnone]
  · intro hres
    exact ⟨by simp [getBookmarksHandler, hres], by simp [createBookmarkHandler, hres],
           by simp [updateBookmarkHandler, hres], by simp [layoutHandler, hres],
           by simp [deleteBookmarkHandler, hres], by simp [getSettingsHandler, hres],
           by simp [putSettingsHandler, hres]⟩

/-- Witness for C8: on the sample store, a session pointing at the deleted
user id `99` gets 401 from the bookmark list with no storage access. -/
theorem auth_gate_rejects_unauthenticated_witness :
    getUserById sampleDB 99 = none ∧
    getBookmarksHandler sampleDB (some 99) = ⟨sampleDB, 401, none, []⟩ := by
  refine ⟨by decide, ?_⟩
  have h := auth_gate_rejects_unauthenticated sampleDB (some 99) 99
    ⟨"t", "u", "c", none, none, none, none, none⟩
    ⟨none, none, none, none, none, none, none, none⟩ none none []
    ⟨none, none, none, none, none, none, none⟩ 0 0
  exact (h.2.2 (h.2.1 (by decide))).1

/-! ## C3: optimistic delete rolls back exactly and always refetches -/

/-- C3. When the server call of an optimistic delete fails, the cached list is
restored to exactly the snapshot taken before the optimistic removal, and
whatever the outcome the mutation ends by scheduling a reconciling refetch. -/
theorem optimistic_delete_rollback (cache : ClientCache) (id : Int) (l : List Bookmark) :
    (cache.bookmarkData = some l →
      (optimisticDelete cache id false).bookmarkData = some l) ∧
    (∀ serverOk : Bool, (optimisticDelete cache id serverOk).refetchScheduled = true) := by
  constructor
  · intro h
    simp [optimisticDelete, deleteOnMutate, deleteOnError, deleteOnSettled, h]
  · intro serverOk
    cases serverOk <;>
      cases cache.bookmarkData <;>
      simp [optimisticDelete, deleteOnMutate, deleteOnError, deleteOnSettled]

/-- Witness for C3: a failed delete of bookmark `bmA` restores the two-element
snapshot `[bmA, bmB]` unchanged. -/
theorem optimistic_delete_rollback_witness :
    (optimisticDelete ⟨some [bmA, bmB], false⟩ bmA.id false).bookmarkData =
      some [bmA, bmB] :=
  (optimistic_delete_rollback ⟨some [bmA, bmB], false⟩ bmA.id [bmA, bmB]).1 (by decide)

/-! ## Layout batch lemmas -/

/-- Cumulative effect of a whole layout batch on a single row. -/
def applyAll (userId : String) (ts : List LayoutWrite) (b : Bookmark) : Bookmark :=
  ts.foldl (fun c t => applyLayout userId t c) b

theorem applyAll_nil (userId : String) (b : Bookmark) : applyAll userId [] b = b :=
  rfl

theorem applyAll_cons (userId : String) (t : LayoutWrite) (ts : List LayoutWrite)
    (b : Bookmark) : applyAll userId (t :: ts) b = applyAll userId ts (applyLayout userId t b) :=
  rfl

/-- The per-tuple update loop of `updateBookmarkLayouts` acts row by row. -/
theorem updateBookmarkLayouts_eq_map (db : DB) (userId : String) (ts : List LayoutWrite) :
    (updateBookmarkLayouts db userId ts).bookmarks = db.bookmarks.map (applyAll userId ts) := by
  show ts.foldl (fun rows t => rows.map (applyLayout userId t)) db.bookmarks = _
  induction ts generalizing db with
  | nil => rw [List.foldl_nil, show applyAll userId [] = id from rfl, List.map_id]
  | cons t ts ih =>
    calc (t :: ts).foldl (fun rows t => rows.map (applyLayout userId t)) db.bookmarks
        = ts.foldl (fun rows t => rows.map (applyLayout userId t))
            ((updateBookmarkLayouts db userId [t]).bookmarks) := rfl
      _ = (db.bookmarks.map (applyLayout userId t)).map (applyAll userId ts) :=
            ih { db with bookmarks := db.bookmarks.map (applyLayout userId t) }
      _ = db.bookmarks.map (applyAll userId (t :: ts)) := by
            rw [List.map_map]; rfl

/-- A layout tuple leaves rows with a different id, or a different (or null)
owner, untouched. -/
theorem applyLayout_eq_self (userId : String) (t : LayoutWrite) (b : Bookmark)
    (h : t.id ≠ b.id ∨ b.userId ≠ some userId) : applyLayout userId t b = b := by
  have hrow : ownedRow t.id userId b = false := by
    rcases h with h | h
    · simp only [ownedRow, Bool.and_eq_false_iff]
      left
      simpa using fun hc : b.id = t.id => h hc.symm
    · simp only [ownedRow, Bool.and_eq_false_iff]
      right
      simpa using h
  simp [applyLayout, hrow]

/-- A whole batch leaves rows owned by another user (or by nobody) untouched. -/
theorem applyAll_of_not_owner (userId : String) (ts : List LayoutWrite) (b : Bookmark)
    (h : b.userId ≠ some userId) : applyAll userId ts b = b := by
  induction ts with
  | nil => rfl
  | cons t ts ih => rw [applyAll_cons, applyLayout_eq_self userId t b (Or.inr h)]; exact ih

/-- A whole batch leaves rows whose id is named by no tuple untouched. -/
theorem applyAll_of_not_targeted (userId : String) (ts : List LayoutWrite) (b : Bookmark)
    (h : ∀ t ∈ ts, t.id ≠ b.id) : applyAll userId ts b = b := by
  induction ts with
  | nil => rfl
  | cons t ts ih =>
    rw [applyAll_cons, applyLayout_eq_self userId t b (Or.inl (h t (List.mem_cons_self t ts)))]
    exact ih fun t' ht' => h t' (List.mem_cons_of_mem t ht')

/-- A layout batch never changes a row's id, owner, title, url, category or
creation time. -/
theorem applyAll_frame (userId : String) (ts : List LayoutWrite) (b : Bookmark) :
    (applyAll userId ts b).id = b.id ∧ (applyAll userId ts b).userId = b.userId ∧
    (applyAll userId ts b).title = b.title ∧ (applyAll userId ts b).url = b.url ∧
    (applyAll userId ts b).category = b.category ∧
    (applyAll userId ts b).createdAt = b.createdAt := by
  induction ts generalizing b with
  | nil => exact ⟨rfl, rfl, rfl, rfl, rfl, rfl⟩
  | cons t ts ih =>
    rw [applyAll_cons]
    have hone : (applyLayout userId t b).id = b.id ∧ (applyLayout userId t b).userId = b.userId ∧
        (applyLayout userId t b).title = b.title ∧ (applyLayout userId t b).url = b.url ∧
        (applyLayout userId t b).category = b.category ∧
        (applyLayout userId t b).createdAt = b.createdAt := by
      unfold applyLayout; split <;> simp
    obtain ⟨h₁, h₂, h₃, h₄, h₅, h₆⟩ := ih (applyLayout userId t b)
    obtain ⟨g₁, g₂, g₃, g₄, g₅, g₆⟩ := hone
    exact ⟨h₁.trans g₁, h₂.trans g₂, h₃.trans g₃, h₄.trans g₄, h₅.trans g₅, h₆.trans g₆⟩

/-- `updateBookmarkLayoutSchema.parse` keeps `id`, the coordinates and the
optional `pinned` of a tuple as they were. -/
theorem parseLayoutInput_spec (t : LayoutInput) (p : LayoutTuple)
    (h : parseLayoutInput t = some p) :
    p.id = t.id ∧ p.x = t.x ∧ p.y = t.y ∧ p.z = t.z ∧ p.pinned = t.pinned := by
  unfold parseLayoutInput at h
  split at h
  · split at h
    · cases h; exact ⟨rfl, rfl, rfl, rfl, rfl⟩
    · split at h
      · cases h; exact ⟨rfl, rfl, rfl, rfl, rfl⟩
      · cases h
  · cases h

/-- A tuple whose explicit scale is outside `[0.2, 3]` fails to parse. -/
theorem parseLayoutInput_none_of_bad_scale (t : LayoutInput) (s : Rat)
    (hs : t.scale = some s) (hout : s < 1/5 ∨ 3 < s) : parseLayoutInput t = none := by
  unfold parseLayoutInput
  split
  · have hnot : ¬(1/5 ≤ s ∧ s ≤ 3) := by
      rcases hout with h | h
      · exact fun hc => absurd hc.1 (not_le.mpr h)
      · exact fun hc => absurd hc.2 (not_le.mpr h)
    simp only [hs]
    rw [if_neg hnot]
  · rfl

/-- One unparsable tuple makes the whole batch fail to parse. -/
theorem parseLayoutBatch_none_of_mem (raw : List LayoutInput) (t : LayoutInput)
    (ht : t ∈ raw) (hbad : parseLayoutInput t = none) : parseLayoutBatch raw = none := by
  induction raw with
  | nil => cases ht
  | cons r rs ih =>
    rcases List.mem_cons.mp ht with h | h
    · subst h
      simp [parseLayoutBatch, hbad]
    · unfold parseLayoutBatch
      rw [ih h]
      cases parseLayoutInput r <;> rfl

/-! ## C2: an out-of-range scale rejects the whole layout batch -/

/-- C2. If any tuple of an authenticated layout batch carries a scale outside
`[0.2, 3]`, the whole request is rejected with a 400 validation error before
any write: the store is returned unchanged and no storage call happened, so no
bookmark's position, scale or pinned flag changes — including for in-range
tuples of the same batch. -/
theorem layout_batch_rejects_bad_scale (db : DB) (sess : Option Int) (user : User)
    (raw : List LayoutInput) (t : LayoutInput) (s : Rat) :
    resolveAuthenticatedUser db sess = some user →
    t ∈ raw → t.scale = some s → (s < 1/5 ∨ 3 < s) →
    layoutHandler db sess raw = ⟨db, 400, none, []⟩ := by
  intro hres ht hs hout
  have hbatch : parseLayoutBatch raw = none :=
    parseLayoutBatch_none_of_mem raw t ht (parseLayoutInput_none_of_bad_scale t s hs hout)
  simp [layoutHandler, hres, hbatch]

/-- Witness for C2: as user `1`, a batch holding one in-range tuple and one
tuple with scale `5` is rejected whole, leaving the sample store unchanged. -/
theorem layout_batch_rejects_bad_scale_witness :
    resolveAuthenticatedUser sampleDB (some 1) = some aliceU ∧
    layoutHandler sampleDB (some 1)
      [⟨1, 0, 0, 0, some 1, none⟩, ⟨1, 0, 0, 0, some 5, none⟩] =
      ⟨sampleDB, 400, none, []⟩ :=
  ⟨by decide,
   layout_batch_rejects_bad_scale sampleDB (some 1) aliceU
     [⟨1, 0, 0, 0, some 1, none⟩, ⟨1, 0, 0, 0, some 5, none⟩]
     ⟨1, 0, 0, 0, some 5, none⟩ 5 (by decide) (by decide) (by decide)
     (Or.inr (by norm_num))⟩

/-! ## C5: a valid layout batch only touches the caller's named bookmarks -/

/-- C5. A valid layout batch acts row by row: rows owned by another user (or
by nobody) and rows named by no tuple are untouched; on every row only
`x, y, z, scale, pinned` can change; and the request succeeds with 204 even
when tuples match no owned row (they are silently skipped). -/
theorem layout_batch_only_touches_named_owned (db : DB) (u : String) (ts : List LayoutWrite)
    (b : Bookmark) (sess : Option Int) (user : User) (raw : List LayoutInput)
    (parsed : List LayoutTuple) :
    ((updateBookmarkLayouts db u ts).bookmarks = db.bookmarks.map (applyAll u ts)) ∧
    (b.userId ≠ some u → applyAll u ts b = b) ∧
    ((∀ t ∈ ts, t.id ≠ b.id) → applyAll u ts b = b) ∧
    ((applyAll u ts b).id = b.id ∧ (applyAll u ts b).userId = b.userId ∧
     (applyAll u ts b).title = b.title ∧ (applyAll u ts b).url = b.url ∧
     (applyAll u ts b).category = b.category ∧ (applyAll u ts b).createdAt = b.createdAt) ∧
    (resolveAuthenticatedUser db sess = some user → parseLayoutBatch raw = some parsed →
      (layoutHandler db sess raw).status = 204) :=
  ⟨updateBookmarkLayouts_eq_map db u ts,
   applyAll_of_not_owner u ts b,
   applyAll_of_not_targeted u ts b,
   applyAll_frame u ts b,
   fun hres hparse => by simp [layoutHandler, hres, hparse]⟩

/-- Witness for C5: a batch naming only bookmark `2` leaves user `2`'s row
untouched when applied as user `1`, and the request — whose only tuple matches
no row owned by user `1` — still succeeds with 204. -/
theorem layout_batch_only_touches_named_owned_witness :
    bmB.userId ≠ some "1" ∧
    applyAll "1" [⟨2, 9, 9, 9, 1, true⟩] bmB = bmB ∧
    (layoutHandler sampleDB (some 1) [⟨2, 9, 9, 9, none, some true⟩]).status = 204 := by
  have h := layout_batch_only_touches_named_owned sampleDB "1" [⟨2, 9, 9, 9, 1, true⟩] bmB
    (some 1) aliceU [⟨2, 9, 9, 9, none, some true⟩]
    [⟨2, 9, 9, 9, 1, some true⟩]
  exact ⟨by decide, h.2.1 (by decide), h.2.2.2.2 (by decide) (by decide)⟩

/-! ## C9: a tuple omitting `pinned` resets the stored flag to `false` -/

/-- C9. The layout route substitutes `pinned := false` for every tuple missing
the optional field, so saving a layout tuple without `pinned` over a
previously pinned bookmark stores it unpinned rather than leaving the flag
unchanged. -/
theorem layout_omitted_pinned_resets (db : DB) (sess : Option Int) (user : User)
    (t : LayoutInput) (p : LayoutTuple) (b : Bookmark) :
    resolveAuthenticatedUser db sess = some user →
    parseLayoutInput t = some p →
    t.pinned = none →
    b ∈ db.bookmarks → b.id = p.id → b.userId = some (userKey user) → b.pinned = true →
    (toLayoutWrite p).pinned = false ∧
    ({ b with x := p.x, y := p.y, z := p.z, scale := p.scale, pinned := false } : Bookmark)
      ∈ (layoutHandler db sess [t]).db.bookmarks := by
  intro hres hparse hpin hb hid hown _hpinned
  have hspec := parseLayoutInput_spec t p hparse
  have hppin : p.pinned = none := hspec.2.2.2.2.trans hpin
  have hwrite : (toLayoutWrite p).pinned = false := by simp [toLayoutWrite, hppin]
  refine ⟨hwrite, ?_⟩
  have hbatch : parseLayoutBatch [t] = some [p] := by
    simp [parseLayoutBatch, hparse]
  have hrow : ownedRow p.id (userKey user) b = true := by
    simp [ownedRow, hid, hown]
  have happ : applyLayout (userKey user) (toLayoutWrite p) b =
      { b with x := p.x, y := p.y, z := p.z, scale := p.scale, pinned := false } := by
    simp [applyLayout, toLayoutWrite, hrow, hppin]
  have : (layoutHandler db sess [t]).db.bookmarks =
      db.bookmarks.map (applyAll (userKey user) [toLayoutWrite p]) := by
    simp [layoutHandler, hres, hbatch]
    exact updateBookmarkLayouts_eq_map db (userKey user) [toLayoutWrite p]
  rw [this]
  have : applyAll (userKey user) [toLayoutWrite p] b =
      { b with x := p.x, y := p.y, z := p.z, scale := p.scale, pinned := false } := by
    rw [applyAll_cons, applyAll_nil, happ]
  exact this ▸ List.mem_map_of_mem _ hb

/-- Witness for C9: a tuple for bookmark `bmA` (pinned in the sample store)
that omits `pinned` stores the row with `pinned = false`. -/
theorem layout_omitted_pinned_resets_witness :
    ({ bmA with x := 4, y := 5, z := 6, scale := 1, pinned := false } : Bookmark)
      ∈ (layoutHandler sampleDB (some 1) [⟨1, 4, 5, 6, none, none⟩]).db.bookmarks :=
  (layout_omitted_pinned_resets sampleDB (some 1) aliceU
    ⟨1, 4, 5, 6, none, none⟩ ⟨1, 4, 5, 6, 1, none⟩ bmA
    (by decide) (by decide) (by decide) (by decide) (by decide) (by decide) (by decide)).2

/-! ## Settings upsert lemmas -/

theorem setSettingsFields_userId (s : UpsertSettings) (now : Nat) (r : UserSettings) :
    (setSettingsFields s now r).userId = r.userId :=
  rfl

theorem getD_getD {α : Type} (o : Option α) (a : α) : o.getD (o.getD a) = o.getD a := by
  cases o <;> rfl

/-- After an owner-filtered settings update, the first row with the given
owner is the updated image of the previously first such row. -/
theorem upsert_head_after_update (l : List UserSettings) (u : String) (s : UpsertSettings)
    (now : Nat) (existing : UserSettings)
    (h : (l.filter (fun r => r.userId == u)).head? = some existing) :
    ((l.map (fun r => if r.userId == u then setSettingsFields s now r else r)).filter
        (fun r => r.userId == u)).head? = some (setSettingsFields s now existing) := by
  rw [List.filter_head?] at h ⊢
  induction l with
  | nil => simp at h
  | cons r rs ih =>
    rw [List.map_cons]
    by_cases hr : (r.userId == u) = true
    · rw [@List.find?_cons_of_pos UserSettings (fun r => r.userId == u) r rs hr,
          Option.some_inj] at h
      subst h
      rw [if_pos hr]
      exact @List.find?_cons_of_pos UserSettings (fun r => r.userId == u) _ _
        (by show ((setSettingsFields s now r).userId == u) = true
            rw [setSettingsFields_userId]; exact hr)
    · rw [@List.find?_cons_of_neg UserSettings (fun r => r.userId == u) r rs hr] at h
      rw [if_neg hr, @List.find?_cons_of_neg UserSettings (fun r => r.userId == u) r _ hr]
      exact ih h

/-- The row `upsertSettings` reports is exactly the row the store then holds
for that user. -/
theorem getSettings_after_upsert (db : DB) (u : String) (s : UpsertSettings) (now : Nat) :
    getSettings (upsertSettings db u s now).1 u = some (upsertSettings db u s now).2 := by
  cases hget : getSettings db u with
  | some existing =>
    have hfil : (db.settings.filter (fun r => r.userId == u)).head? = some existing := by
      unfold getSettings at hget; exact hget
    simp only [upsertSettings, hget]
    unfold getSettings
    exact upsert_head_after_update db.settings u s now existing hfil
  | none =>
    have hnil : db.settings.filter (fun r => r.userId == u) = [] := by
      unfold getSettings at hget
      exact List.head?_eq_none_iff.mp hget
    simp only [upsertSettings, hget]
    unfold getSettings
    simp only [List.filter_append, hnil, List.nil_append]
    simp

/-- Re-applying the same payload to the row an upsert produced only moves the
timestamp: every settings value is already absorbed. -/
theorem upsert_result_absorbs (db : DB) (u : String) (s : UpsertSettings) (t₁ t₂ : Nat) :
    setSettingsFields s t₂ (upsertSettings db u s t₁).2 =
      { (upsertSettings db u s t₁).2 with updatedAt := t₂ } := by
  cases hget : getSettings db u with
  | some existing =>
    simp only [upsertSettings, hget]
    simp [setSettingsFields, getD_getD]
  | none =>
    simp only [upsertSettings, hget]
    simp [setSettingsFields, getD_getD]

/-- Every row of the store owned by `u` after an upsert of payload `s` absorbs
a second application of `s` up to the timestamp. -/
theorem upsert_rows_absorb (db : DB) (u : String) (s : UpsertSettings) (t₁ : Nat) :
    ∀ row ∈ (upsertSettings db u s t₁).1.settings, (row.userId == u) = true →
      ∀ t₂, setSettingsFields s t₂ row = { row with updatedAt := t₂ } := by
  intro row hrow hq t₂
  cases hget : getSettings db u with
  | none =>
    simp only [upsertSettings, hget] at hrow
    rcases List.mem_append.mp hrow with h | h
    · have hnil : db.settings.filter (fun r => r.userId == u) = [] := by
        unfold getSettings at hget
        exact List.head?_eq_none_iff.mp hget
      exact absurd hq (List.filter_eq_nil_iff.mp hnil row h)
    · have hrow' := List.mem_singleton.mp h
      subst hrow'
      simp [setSettingsFields, getD_getD]
  | some existing =>
    simp only [upsertSettings, hget] at hrow
    rcases List.mem_map.mp hrow with ⟨r₀, hr₀, hEq⟩
    by_cases hq₀ : (r₀.userId == u) = true
    · rw [if_pos hq₀] at hEq
      subst hEq
      simp [setSettingsFields, getD_getD]
    · rw [if_neg hq₀] at hEq
      subst hEq
      exact absurd hq hq₀

/-! ## C6: settings upsert idempotence (corrected: `updatedAt` is refreshed) -/

/-- A full settings payload used to exercise the upsert path. -/
def fullPayload : UpsertSettings :=
  ⟨some 2, some 1, some 1, some 100, some true, some false, some false⟩

/-- Counterexample to C6 as stated: re-applying the same payload *does*
change the stored record, because the update path always sets `updatedAt` to
the current time (`{ ...settings, updatedAt: new Date() }`). -/
theorem upsert_settings_second_application_changes_record :
    (upsertSettings (upsertSettings sampleDB "1" fullPayload 0).1 "1" fullPayload 1).1 ≠
      (upsertSettings sampleDB "1" fullPayload 0).1 := by
  decide

/-- C6 (amended). Settings upsert is idempotent on all stored settings values:
re-applying the same payload returns, and stores, exactly the record produced
by the first application with only its `updatedAt` timestamp refreshed; rows
of other users are untouched. -/
theorem upsert_settings_idempotent_values (db : DB) (u : String) (s : UpsertSettings)
    (t₁ t₂ : Nat) :
    getSettings (upsertSettings db u s t₁).1 u = some (upsertSettings db u s t₁).2 ∧
    (upsertSettings (upsertSettings db u s t₁).1 u s t₂).2 =
      { (upsertSettings db u s t₁).2 with updatedAt := t₂ } ∧
    (upsertSettings (upsertSettings db u s t₁).1 u s t₂).1.settings =
      (upsertSettings db u s t₁).1.settings.map
        (fun r => if r.userId == u then { r with updatedAt := t₂ } else r) := by
  have h₁ := getSettings_after_upsert db u s t₁
  have habs := upsert_result_absorbs db u s t₁ t₂
  have hrows := upsert_rows_absorb db u s t₁
  rcases hu : upsertSettings db u s t₁ with ⟨db₁, r₁⟩
  rw [hu] at h₁ habs hrows
  refine ⟨h₁, ?_, ?_⟩
  · simp only [upsertSettings, h₁]
    exact habs
  · simp only [upsertSettings, h₁]
    apply List.map_congr_left
    intro r hrmem
    by_cases hq : (r.userId == u) = true
    · rw [if_pos hq, if_pos hq]
      exact hrows r hrmem hq t₂
    · rw [if_neg hq, if_neg hq]

/-! ## Lowercasing lemmas -/

theorem char_toLower_idem (c : Char) : c.toLower.toLower = c.toLower := by
  have hofnat : ∀ (n : Nat) (h : n.isValidChar), (Char.ofNat n).toNat = n := by
    intro n h
    rw [Char.ofNat, dif_pos h]
    rfl
  by_cases h : c.toNat ≥ 65 ∧ c.toNat ≤ 90
  · have hv : (c.toNat + 32).isValidChar := Or.inl (by omega)
    have h₁ : c.toLower = Char.ofNat (c.toNat + 32) := by
      simp only [Char.toLower]
      rw [if_pos h]
    have h₂ : (Char.ofNat (c.toNat + 32)).toNat = c.toNat + 32 := hofnat _ hv
    rw [h₁]
    simp only [Char.toLower]
    rw [h₂, if_neg (by omega)]
  · have h₁ : c.toLower = c := by
      simp only [Char.toLower]
      rw [if_neg h]
    rw [h₁, h₁]

theorem lowerString_idem (e : String) : lowerString (lowerString e) = lowerString e := by
  unfold lowerString
  rw [List.map_map]
  exact congrArg String.mk (List.map_congr_left fun c _ => char_toLower_idem c)

/-! ## C7: duplicate (case-insensitive) signup is a conflict, emails lowercase -/

/-- C7. A signup whose email lowercases to an already registered user's email
is answered 409 with the user table unchanged; `createUser` stores emails
lowercased; and signup preserves the all-lowercase invariant, under which two
distinct users can never hold the same email in different cases. -/
theorem signup_conflict_on_registered_email (db : DB) (input : SignupInput)
    (passwordHash : String) (now : Nat) (n e p : String) (t : Nat) :
    ((∃ c ∈ db.users, c.email = lowerString input.email) →
      signupHandler db input passwordHash now = (db, 409, none)) ∧
    ((createUser db n e p t).2.email = lowerString e) ∧
    ((∀ c ∈ db.users, c.email = lowerString c.email) →
      ∀ c ∈ (signupHandler db input passwordHash now).1.users, c.email = lowerString c.email) ∧
    ((∀ c ∈ db.users, c.email = lowerString c.email) →
      ∀ c₁ ∈ db.users, ∀ c₂ ∈ db.users,
        lowerString c₁.email = lowerString c₂.email → c₁.email = c₂.email) := by
  refine ⟨?_, rfl, ?_, ?_⟩
  · rintro ⟨c, hc, he⟩
    have hmem : c ∈ db.users.filter (fun v => v.email == lowerString input.email) :=
      List.mem_filter.mpr ⟨hc, by simp [he]⟩
    have hne : db.users.filter (fun v => v.email == lowerString input.email) ≠ [] :=
      List.ne_nil_of_mem hmem
    obtain ⟨v, hv⟩ := Option.ne_none_iff_exists'.mp
      (fun hnone => hne (List.head?_eq_none_iff.mp hnone))
    have hbyEmail : getUserByEmail db input.email = some v := hv
    simp [signupHandler, hbyEmail]
  · intro hinv c hcmem
    by_cases hex : ∃ v, getUserByEmail db input.email = some v
    · obtain ⟨v, hv⟩ := hex
      simp only [signupHandler, hv] at hcmem
      exact hinv c hcmem
    · have hv : getUserByEmail db input.email = none :=
        Option.eq_none_iff_forall_not_mem.mpr
          (fun v hmem => hex ⟨v, hmem⟩)
      simp only [signupHandler, hv, createUser] at hcmem
      rcases List.mem_append.mp hcmem with h | h
      · exact hinv c h
      · have hc := List.mem_singleton.mp h
        subst hc
        exact (lowerString_idem input.email).symm
  · intro hinv c₁ h₁ c₂ h₂ hlow
    rw [hinv c₁ h₁, hinv c₂ h₂, hlow]

/-- Witness for C7 on the sample store: signing up with `Alice@Example.COM`
(already registered as `alice@example.com`) is rejected 409, creating no row. -/
theorem signup_conflict_on_registered_email_witness :
    (∃ c ∈ sampleDB.users, c.email = lowerString "Alice@Example.COM") ∧
    signupHandler sampleDB ⟨"Eve", "Alice@Example.COM", "password123"⟩ "s:h2" 7 =
      (sampleDB, 409, none) := by
  have hex : ∃ c ∈ sampleDB.users, c.email = lowerString "Alice@Example.COM" :=
    ⟨aliceU, by decide, by decide⟩
  exact ⟨hex,
    (signup_conflict_on_registered_email sampleDB ⟨"Eve", "Alice@Example.COM", "password123"⟩
      "s:h2" 7 "" "" "" 0).1 hex⟩

/-! ## C10: settings read falls back to defaults without creating a row -/

/-- C10. `GET /api/settings` never writes; for an authenticated user with no
stored row it answers 200 with the inline default object (glow 1.1, rotate
0.35, zoom 1, particles 120, all toggles off) carrying that user's id; a
settings row appears only once `upsertSettings` runs for that user, which then
appends exactly one row. -/
theorem settings_read_defaults_without_row (db : DB) (sess : Option Int) (user : User)
    (u : String) (s : UpsertSettings) (now : Nat) :
    ((getSettingsHandler db sess).db = db) ∧
    (resolveAuthenticatedUser db sess = some user → getSettings db (userKey user) = none →
      getSettingsHandler db sess =
        ⟨db, 200,
         some (.fallback (userKey user) (11/10) (7/20) 1 120 false false false),
         [.opGetSettings (userKey user)]⟩) ∧
    (getSettings db u = none →
      ∃ row, (upsertSettings db u s now).1.settings = db.settings ++ [row] ∧
        row.userId = u) := by
  refine ⟨?_, ?_, ?_⟩
  · cases hres : resolveAuthenticatedUser db sess <;> simp [getSettingsHandler, hres]
  · intro hres hget
    simp [getSettingsHandler, hres, hget]
  · intro hget
    simp only [upsertSettings, hget]
    exact ⟨_, rfl, rfl⟩

/-- Witness for C10 on the sample store (which has no settings rows): user `1`
reads the default settings object and the store is unchanged. -/
theorem settings_read_defaults_without_row_witness :
    getSettings sampleDB "1" = none ∧
    getSettingsHandler sampleDB (some 1) =
      ⟨sampleDB, 200,
       some (.fallback (userKey aliceU) (11/10) (7/20) 1 120 false false false),
       [.opGetSettings (userKey aliceU)]⟩ :=
  ⟨by decide,
   (settings_read_defaults_without_row sampleDB (some 1) aliceU "1"
      ⟨none, none, none, none, none, none, none⟩ 0).2.1 (by decide) (by decide)⟩

end Web3DBookmark
